import Mathlib

/-!
Verification of the per-session event engine of the golang-socketio package:
channel lifecycle (closeChannel, Close, sendOut, outLoop, pinger), the
server-side membership registry (Join, Leave, onDisconnectCleanup), the
rate limiter (newRateLimiter / limiter), graceful shutdown (Shutdown),
and the handler registry (newCaller, On, callLoopEvent,
processIncomingMessage).

Each Go function is given a shallow embedding: pure functions become Lean
functions; the state touched by a stateful function is made explicit and the
function becomes a state transformer; observable side effects (transport
close, events raised, error-handler calls, queue enqueues) are recorded in
counters or effect lists.  The mutex-serialized critical sections of the Go
code are modelled as atomic steps, so an interleaving of calls is a sequence
of step applications.
-/

set_option autoImplicit false

namespace Gos

/-! ## Channel lifecycle: closeChannel (channel.go)

State of one Channel as far as closing is concerned.  `alive` and
`aliveCClosed` mirror the `alive` bool and the one-shot `aliveC` signal.
The three counters record the observable effects: calls of `conn.Close()`,
`close(aliveC)` operations and `OnDisconnection` events raised through
`callLoopEvent`. -/
structure ChState where
  alive : Bool
  aliveCClosed : Bool
  connCloses : Nat
  aliveCCloses : Nat
  disconnectEvents : Nat
  deriving DecidableEq, Repr

/-- Channel state right after `initChannel`: alive, signal pending, no
effects performed yet. -/
def initChannel : ChState :=
  { alive := true, aliveCClosed := false, connCloses := 0,
    aliveCCloses := 0, disconnectEvents := 0 }

/-- Embedding of `closeChannel` (channel.go): under the alive mutex, if the
channel is already not alive return with no effect; otherwise close the
transport, clear `alive`, close `aliveC`, and afterwards raise one
`OnDisconnection` event.  The whole guarded section is serialized by
`aliveLock`, so one invocation is one atomic step. -/
def closeChannel (st : ChState) : ChState :=
  if st.alive = false then st
  else
    { alive := false, aliveCClosed := true, connCloses := st.connCloses + 1,
      aliveCCloses := st.aliveCCloses + 1,
      disconnectEvents := st.disconnectEvents + 1 }

/-- The state every close of a fresh channel reaches. -/
def closedChannel : ChState :=
  { alive := false, aliveCClosed := true, connCloses := 1,
    aliveCCloses := 1, disconnectEvents := 1 }

theorem closeChannel_initChannel : closeChannel initChannel = closedChannel := by
  decide

theorem closeChannel_of_not_alive {st : ChState} (h : st.alive = false) :
    closeChannel st = st := by
  simp [closeChannel, h]

theorem closeChannel_iter_succ (n : Nat) :
    closeChannel^[n + 1] initChannel = closedChannel := by
  induction n with
  | zero => simpa using closeChannel_initChannel
  | succ k ih =>
      rw [Function.iterate_succ_apply', ih]
      exact closeChannel_of_not_alive rfl

/-- C1: Channel close is idempotent: the Go mutex serializes concurrent
invocations of `closeChannel` into a sequence of atomic steps; for any number
`n + 1 ≥ 1` of invocations on a fresh channel, exactly one transport `Close`
happens, `alive` is cleared and `aliveC` is closed exactly once, exactly one
`OnDisconnection` event is raised, and every invocation on an already-closed
channel returns the state unchanged. -/
theorem close_idempotent :
    (∀ n : Nat, closeChannel^[n + 1] initChannel = closedChannel) ∧
    (∀ st : ChState, st.alive = false → closeChannel st = st) := by
  refine ⟨closeChannel_iter_succ, ?_⟩
  intro st h
  exact closeChannel_of_not_alive h

/-- Witness for `close_idempotent` at a concrete closed channel state. -/
theorem close_idempotent_witness :
    closeChannel closedChannel = closedChannel :=
  close_idempotent.2 closedChannel rfl

/-! ## Public Channel.Close (server.go)

`Close` only calls `closeChannel` when the channel has a server
back-reference: `if c.server != nil { closeChannel(c, &c.server.methods) }`. -/

/-- A channel together with the presence bit of its `server` field. -/
structure PubChannel where
  base : ChState
  hasServer : Bool
  deriving DecidableEq, Repr

/-- Embedding of the public `Channel.Close` method (server.go). -/
def ChannelClose (c : PubChannel) : PubChannel :=
  if c.hasServer = true then { c with base := closeChannel c.base } else c

/-- C9: The public `Channel.Close()` is a no-op for a channel with no
server back-reference: the state (alive flag, alive-closed signal, transport,
event counters) is returned unchanged; a channel with a server is closed via
`closeChannel`. -/
theorem channelClose_spec (c : PubChannel) :
    (c.hasServer = false → ChannelClose c = c) ∧
    (c.hasServer = true →
      ChannelClose c = { c with base := closeChannel c.base }) := by
  constructor
  · intro h
    simp [ChannelClose, h]
  · intro h
    simp [ChannelClose, h]

/-- Witness for `channelClose_spec`: a live client-mode channel (no server)
is left untouched by `Close`. -/
theorem channelClose_spec_witness :
    ChannelClose { base := initChannel, hasServer := false } =
      { base := initChannel, hasServer := false } :=
  (channelClose_spec { base := initChannel, hasServer := false }).1 rfl

/-! ## sendOut (channel.go)

`sendOut` is a select over three cases: `c.out <- msg`, `<-c.done`,
`<-c.aliveC`.  A select case is ready when its communication can proceed:
the enqueue is ready iff the buffered queue has a free slot, a signal case
is ready iff the signal has been closed.  The select blocks exactly when no
case is ready. -/

/-- The three outcomes a `sendOut` select can commit to. -/
inductive SendOutcome where
  | enqueued
  | doneSignal
  | aliveSignal
  deriving DecidableEq, Repr

/-- The environment a `sendOut` call runs in. -/
structure SendCtx where
  queueLen : Nat
  capacity : Nat
  doneClosed : Bool
  aliveCClosed : Bool
  deriving DecidableEq, Repr

/-- Which select cases of `sendOut` are ready in a given context. -/
def sendOutReady (ctx : SendCtx) : SendOutcome → Bool
  | .enqueued => decide (ctx.queueLen < ctx.capacity)
  | .doneSignal => ctx.doneClosed
  | .aliveSignal => ctx.aliveCClosed

/-- `sendOut` blocks exactly when none of its three select cases is ready. -/
def sendOutBlocks (ctx : SendCtx) : Bool :=
  !(sendOutReady ctx .enqueued || sendOutReady ctx .doneSignal ||
    sendOutReady ctx .aliveSignal)

/-- C6: Safe-send: `sendOut` selects across exactly the three outcomes
enqueue / server-done / alive-closed; once either signal is closed the select
always has a ready case, so the call never blocks on a full queue; and the
enqueue case is only ready while the queue is strictly below capacity. -/
theorem sendOut_never_blocks_after_signal (ctx : SendCtx) :
    (ctx.doneClosed = true ∨ ctx.aliveCClosed = true →
      sendOutBlocks ctx = false) ∧
    (sendOutReady ctx .enqueued = true → ctx.queueLen < ctx.capacity) := by
  constructor
  · rintro (h | h) <;> simp [sendOutBlocks, sendOutReady, h]
  · intro h
    simpa [sendOutReady] using h

/-- Witness for `sendOut_never_blocks_after_signal`: a full queue with the
alive-closed signal set does not block. -/
theorem sendOut_never_blocks_after_signal_witness :
    sendOutBlocks ⟨50, 50, false, true⟩ = false :=
  (sendOut_never_blocks_after_signal _).1 (Or.inr rfl)

/-! ## outLoop (channel.go) and the bounded outbound queue

`c.out` is a buffered Go channel of capacity `QueueBufferSize`.  An enqueue
can only complete while the buffer holds strictly fewer elements than its
capacity; a receive takes the oldest element.  `outLoop` starts every
iteration with the overflood check `len(c.out) >= QueueBufferSize-1` and only
then selects among server-done, alive-closed, and the next queued message. -/

/-- The default `QueueBufferSize` (channel.go). -/
def QueueBufferSize : Nat := 50

/-- Operations other tasks perform on the bounded outbound queue. -/
inductive QOp where
  | enq (msg : String)
  | deq
  deriving DecidableEq, Repr

/-- One operation on a buffered Go channel of capacity `capacity`: a send
completes only while the buffer is below capacity, a receive drops the
oldest element. -/
def qstep (capacity : Nat) (q : List String) : QOp → List String
  | .enq m => if q.length < capacity then q ++ [m] else q
  | .deq => q.tail

/-- Run a sequence of queue operations from the empty queue `initChannel`
creates. -/
def qrun (capacity : Nat) (ops : List QOp) : List String :=
  ops.foldl (qstep capacity) []

theorem qstep_length_le (capacity : Nat) (q : List String) (op : QOp)
    (h : q.length ≤ capacity) : (qstep capacity q op).length ≤ capacity := by
  cases op with
  | enq m =>
      by_cases hlt : q.length < capacity
      · simp only [qstep, if_pos hlt, List.length_append, List.length_cons,
          List.length_nil]
        omega
      · simp [qstep, hlt, h]
  | deq =>
      calc (qstep capacity q .deq).length ≤ q.length := by
            simp only [qstep, List.length_tail]
            omega
        _ ≤ capacity := h

theorem qrun_length_le (capacity : Nat) (ops : List QOp) :
    (qrun capacity ops).length ≤ capacity := by
  suffices h : ∀ q : List String, q.length ≤ capacity →
      (ops.foldl (qstep capacity) q).length ≤ capacity by
    exact h [] (by simp)
  induction ops with
  | nil => intro q hq; simpa using hq
  | cons op rest ih =>
      intro q hq
      exact ih (qstep capacity q op) (qstep_length_le capacity q op hq)

/-- How the select inside one `outLoop` iteration resolves. -/
inductive OutEvent where
  | evDone
  | evAlive
  | evMsg (writeOk : Bool)
  deriving DecidableEq, Repr

/-- How one `outLoop` iteration ends: loop again, or return with the given
result. -/
inductive OutResult where
  | resOverflood
  | resDoneNil
  | resAliveNil
  | resWriteErr
  deriving DecidableEq, Repr

/-- State the out-loop works on: the channel close state plus the outbound
queue contents. -/
structure OutState where
  ch : ChState
  queue : List String
  deriving DecidableEq, Repr

/-- Embedding of one iteration of `outLoop` (channel.go).  First the
overflood check `len(c.out) >= QueueBufferSize-1`: if it holds the channel is
closed and the loop returns `ErrorSocketOverflood`.  Otherwise resolve the
select: server-done closes the channel and returns nil; alive-closed returns
nil silently; a queued message is taken and written, a write error closing
the channel and returning the error. -/
def outIter (capacity : Nat) (st : OutState) (ev : OutEvent) :
    OutState × Option OutResult :=
  if capacity - 1 ≤ st.queue.length then
    ({ st with ch := closeChannel st.ch }, some .resOverflood)
  else
    match ev with
    | .evDone => ({ st with ch := closeChannel st.ch }, some .resDoneNil)
    | .evAlive => (st, some .resAliveNil)
    | .evMsg writeOk =>
        let st' : OutState := { st with queue := st.queue.tail }
        if writeOk then (st', none)
        else ({ st' with ch := closeChannel st'.ch }, some .resWriteErr)

/-- C3: Overflood policy: every `outLoop` iteration checks the queue
length against `QueueBufferSize - 1` before taking a message; when the
length is at least capacity minus one, the channel is closed and the loop
terminates returning `ErrorSocketOverflood`, whatever the pending select
event was; and, since a buffered Go channel only accepts a send below
capacity, the queue length never exceeds capacity across any operation
sequence. -/
theorem outLoop_overflood (st : OutState) (ev : OutEvent) :
    (QueueBufferSize - 1 ≤ st.queue.length →
      outIter QueueBufferSize st ev =
        ({ st with ch := closeChannel st.ch }, some .resOverflood)) ∧
    (∀ ops : List QOp, (qrun QueueBufferSize ops).length ≤ QueueBufferSize) := by
  constructor
  · intro h
    simp [outIter, h]
  · intro ops
    exact qrun_length_le QueueBufferSize ops

/-- Witness for `outLoop_overflood`: with 49 pending messages the iteration
closes the channel and returns the overflood error even though a message
event was pending. -/
theorem outLoop_overflood_witness :
    outIter QueueBufferSize ⟨initChannel, List.replicate 49 "m"⟩
        (.evMsg true) =
      (⟨closedChannel, List.replicate 49 "m"⟩, some .resOverflood) := by
  have h := (outLoop_overflood ⟨initChannel, List.replicate 49 "m"⟩
    (.evMsg true)).1 (by decide)
  simpa [closeChannel_initChannel] using h

/-! ## Rate limiter (options.go: newRateLimiter, limiter)

`newRateLimiter(c, limit)` picks one of three behaviours by the sign of
`limit`.  The observable state is the number of occupied limiter slots
(`len(rl)`, capacity `limit`) and the server's global goroutine counter. -/

/-- Slots currently held by the bounded limiter plus the server's global
goroutine counter. -/
structure RLState where
  slots : Nat
  counter : Int
  deriving DecidableEq, Repr

/-- What a single `dispatch(work)` call did. -/
inductive RLOutcome where
  | spawned
  | inline
  | dropped
  deriving DecidableEq, Repr

/-- Errors of the engine surfaced through the error handler or returned to
callers. -/
inductive GoError where
  | errNotFunc
  | errNot2Args
  | errMaxOneValue
  | errRateLimiting
  | errMethodNotFound
  | errJsonUnmarshal
  | errWaiterNotFound
  | errSocketOverflood
  deriving DecidableEq, Repr

/-- Embedding of the closure returned by `newRateLimiter` (options.go),
entry half.  `limit < 0`: increment the counter and spawn.  `limit == 0`:
run the work inline.  `limit > 0`: `rl.acquire()` succeeds iff a slot is
free (`len(rl) < limit`); on failure call the error handler with
`ErrRateLimiting` and drop the work; on success take the slot, increment the
counter and spawn. -/
def dispatch (limit : Int) (st : RLState) :
    RLState × RLOutcome × Option GoError :=
  if limit < 0 then
    ({ st with counter := st.counter + 1 }, .spawned, none)
  else if limit = 0 then
    (st, .inline, none)
  else if st.slots < limit.toNat then
    ({ slots := st.slots + 1, counter := st.counter + 1 }, .spawned, none)
  else
    (st, .dropped, some .errRateLimiting)

/-- Embedding of the deferred epilogue of a spawned dispatch task:
`rl.release()` (for a bounded limiter) and `c.server.dec()`. -/
def finishWork (limit : Int) (st : RLState) : RLState :=
  if limit < 0 then { st with counter := st.counter - 1 }
  else if limit = 0 then st
  else { slots := st.slots - 1, counter := st.counter - 1 }

/-- C4: Rate limiter modes.  `limit < 0`: always spawn, global counter up
for the duration of the work and restored by the epilogue.  `limit == 0`:
run inline, no spawn, no state change.  `limit > 0`: a free slot yields a
spawn holding one slot and one counter increment, both released by the
epilogue; a full limiter drops the work and raises `ErrRateLimiting`. -/
theorem rateLimiter_modes (limit : Int) (st : RLState) :
    (limit < 0 →
      dispatch limit st = ({ st with counter := st.counter + 1 }, .spawned, none) ∧
      finishWork limit { st with counter := st.counter + 1 } = st) ∧
    (limit = 0 → dispatch limit st = (st, .inline, none)) ∧
    (0 < limit →
      (st.slots < limit.toNat →
        dispatch limit st = (⟨st.slots + 1, st.counter + 1⟩, .spawned, none) ∧
        finishWork limit ⟨st.slots + 1, st.counter + 1⟩ = st) ∧
      (limit.toNat ≤ st.slots →
        dispatch limit st = (st, .dropped, some .errRateLimiting))) := by
  refine ⟨?_, ?_, ?_⟩
  · intro hneg
    constructor
    · simp [dispatch, hneg]
    · simp [finishWork, hneg]
  · intro hz
    simp [dispatch, hz]
  · intro hpos
    have hneg : ¬ limit < 0 := by omega
    have hz : ¬ limit = 0 := by omega
    constructor
    · intro hfree
      constructor
      · simp [dispatch, hneg, hz, hfree]
      · have : ¬ limit = 0 := hz
        simp [finishWork, hneg, hz]
    · intro hfull
      have : ¬ st.slots < limit.toNat := by omega
      simp [dispatch, hneg, hz, this]

/-- Witness for `rateLimiter_modes`: with `limit = 1` and the slot already
held, a dispatch is dropped with `ErrRateLimiting`. -/
theorem rateLimiter_modes_witness :
    dispatch 1 ⟨1, 1⟩ = (⟨1, 1⟩, .dropped, some .errRateLimiting) :=
  (((rateLimiter_modes 1 ⟨1, 1⟩).2.2 (by decide)).2 (by decide))

/-! ## Graceful shutdown (server.go: Shutdown, inc, dec, NumGoroutine)

`Shutdown` first performs a test-and-close on the server-wide `done`
channel, then polls `NumGoroutine()` on a 100 ms ticker until the counter
drains or the context deadline fires. -/

/-- The server-wide done indicator together with a count of how often
`close(s.done)` was actually executed. -/
structure DoneState where
  closed : Bool
  closeCount : Nat
  deriving DecidableEq, Repr

/-- Embedding of the test-and-close at the top of `Shutdown` (server.go):
`select { case <-s.done: default: close(s.done) }`. -/
def signalDone (st : DoneState) : DoneState :=
  if st.closed then st else { closed := true, closeCount := st.closeCount + 1 }

/-- Embedding of the polling loop of `Shutdown` (server.go).  `counts t` is
the value `NumGoroutine()` returns at the `t`-th ticker tick; `deadline` is
the number of ticks that happen before the context deadline fires.  Each
tick returns success if the counter is drained (`<= 0`); when the deadline
fires the loop returns an error carrying the residual counter value. -/
def shutdownPoll (counts : Nat → Int) : Nat → Except Int Unit
  | 0 => .error (counts 0)
  | d + 1 =>
      if counts 0 ≤ 0 then .ok ()
      else shutdownPoll (fun t => counts (t + 1)) d

theorem shutdownPoll_ok_iff (counts : Nat → Int) (d : Nat) :
    shutdownPoll counts d = .ok () ↔ ∃ t, t < d ∧ counts t ≤ 0 := by
  induction d generalizing counts with
  | zero => simp [shutdownPoll]
  | succ k ih =>
      by_cases h : counts 0 ≤ 0
      · constructor
        · intro _
          exact ⟨0, Nat.succ_pos k, h⟩
        · intro _
          simp [shutdownPoll, h]
      · simp only [shutdownPoll, if_neg h]
        rw [ih]
        constructor
        · rintro ⟨t, ht, hc⟩
          exact ⟨t + 1, by omega, hc⟩
        · rintro ⟨t, ht, hc⟩
          cases t with
          | zero => exact absurd hc h
          | succ t' => exact ⟨t', by omega, hc⟩

theorem shutdownPoll_error_residual (counts : Nat → Int) (d : Nat)
    (h : ¬ shutdownPoll counts d = .ok ()) :
    shutdownPoll counts d = .error (counts d) := by
  induction d generalizing counts with
  | zero => simp [shutdownPoll]
  | succ k ih =>
      by_cases h0 : counts 0 ≤ 0
      · exact absurd (by simp [shutdownPoll, h0]) h
      · have h' : ¬ shutdownPoll (fun t => counts (t + 1)) k = .ok () := by
          simpa [shutdownPoll, h0] using h
        simpa [shutdownPoll, h0] using ih (fun t => counts (t + 1)) h'

theorem signalDone_iter (n : Nat) :
    (signalDone^[n + 1] ⟨false, 0⟩) = ⟨true, 1⟩ := by
  induction n with
  | zero => decide
  | succ k ih =>
      rw [Function.iterate_succ_apply', ih]
      decide

/-- C5: Shutdown contract: repeated `Shutdown` calls close the done
indicator exactly once (test-and-close); given that the goroutine counter
never goes negative (every `dec` pairs with a preceding `inc`), the polling
loop returns success exactly when the counter reaches zero at some tick
before the deadline, and otherwise fails carrying the residual counter value
read when the deadline fired; on every successful return the counter — the
value `NumGoroutine()` reports — is zero. -/
theorem shutdown_contract (counts : Nat → Int) (d : Nat)
    (hnn : ∀ t, 0 ≤ counts t) :
    (shutdownPoll counts d = .ok () ↔ ∃ t, t < d ∧ counts t = 0) ∧
    (shutdownPoll counts d = .ok () ∨
      shutdownPoll counts d = .error (counts d)) ∧
    (∀ n : Nat, signalDone^[n + 1] ⟨false, 0⟩ = ⟨true, 1⟩) := by
  refine ⟨?_, ?_, signalDone_iter⟩
  · rw [shutdownPoll_ok_iff]
    constructor
    · rintro ⟨t, ht, hc⟩
      exact ⟨t, ht, le_antisymm hc (hnn t)⟩
    · rintro ⟨t, ht, hc⟩
      exact ⟨t, ht, le_of_eq hc⟩
  · by_cases h : shutdownPoll counts d = .ok ()
    · exact Or.inl h
    · exact Or.inr (shutdownPoll_error_residual counts d h)

/-- Witness for `shutdown_contract`: a counter that drains at the second
tick succeeds within a three-tick deadline. -/
theorem shutdown_contract_witness :
    shutdownPoll (fun t => if t < 1 then 2 else 0) 3 = .ok () :=
  ((shutdown_contract (fun t => if t < 1 then 2 else 0) 3
      (by intro t; by_cases h : t < 1 <;> simp [h])).1).2
    ⟨1, by omega, by simp⟩

/-! ## Server membership registry (server.go: Join, Leave, onDisconnectCleanup)

`Server.channels : map[string]map[*Channel]struct{}` and
`Server.rooms : map[*Channel]map[string]struct{}` are represented as total
functions into finite sets together with the finite sets of keys actually
present in each Go map — reading an absent key of a Go map yields the empty
(nil) inner map, which is exactly the default value of the function.
Channels are identified by a numeric id.  All three operations run under
`channelsLock`, so a concurrent history is a sequence of these steps. -/

structure Registry where
  channels : String → Finset Nat
  chanKeys : Finset String
  rooms : Nat → Finset String
  roomKeys : Finset Nat

/-- The maps `NewServer` starts from: both maps empty. -/
def Registry.empty : Registry :=
  { channels := fun _ => ∅, chanKeys := ∅, rooms := fun _ => ∅, roomKeys := ∅ }

/-- Embedding of `Channel.Join` (server.go): create `channels[room]` and
`rooms[c]` when absent, then insert `c` into `channels[room]` and `room`
into `rooms[c]`. -/
def Registry.Join (g : Registry) (c : Nat) (r : String) : Registry :=
  { channels := Function.update g.channels r
      (insert c (if r ∈ g.chanKeys then g.channels r else ∅)),
    chanKeys := insert r g.chanKeys,
    rooms := Function.update g.rooms c
      (insert r (if c ∈ g.roomKeys then g.rooms c else ∅)),
    roomKeys := insert c g.roomKeys }

/-- Embedding of `Channel.Leave` (server.go): when `channels[room]` exists,
delete `c` from it and drop the `room` key if the set became empty; when
`rooms[c]` exists, delete `room` from it (the `rooms[c]` key itself is kept
even when its set becomes empty). -/
def Registry.Leave (g : Registry) (c : Nat) (r : String) : Registry :=
  { channels :=
      if r ∈ g.chanKeys then
        Function.update g.channels r ((g.channels r).erase c)
      else g.channels,
    chanKeys :=
      if r ∈ g.chanKeys ∧ (g.channels r).erase c = ∅ then g.chanKeys.erase r
      else g.chanKeys,
    rooms :=
      if c ∈ g.roomKeys then
        Function.update g.rooms c ((g.rooms c).erase r)
      else g.rooms,
    roomKeys := g.roomKeys }

/-- Embedding of `onDisconnectCleanup` (server.go), membership half: when
`rooms[c]` exists, for every room in it delete `c` from the existing
`channels[room]` (dropping the room key when its set becomes empty), then
delete the `rooms[c]` key.  The loop iterations touch pairwise distinct
room keys, so the loop is expressed pointwise. -/
def onDisconnectCleanup (g : Registry) (c : Nat) : Registry :=
  if c ∈ g.roomKeys then
    { channels := fun r =>
        if r ∈ g.rooms c ∧ r ∈ g.chanKeys then (g.channels r).erase c
        else g.channels r,
      chanKeys := g.chanKeys.filter
        (fun r => ¬ (r ∈ g.rooms c ∧ (g.channels r).erase c = ∅)),
      rooms := Function.update g.rooms c ∅,
      roomKeys := g.roomKeys.erase c }
  else g

/-- Duality of the two membership maps. -/
def Dual (g : Registry) : Prop :=
  ∀ (r : String) (c : Nat), c ∈ g.channels r ↔ r ∈ g.rooms c

/-- A room key is present in `channels` exactly while its set is nonempty. -/
def EmptyRemoved (g : Registry) : Prop :=
  ∀ r : String, r ∈ g.chanKeys ↔ g.channels r ≠ ∅

/-- A channel with no `rooms` key has no memberships. -/
def RoomKeysCover (g : Registry) : Prop :=
  ∀ c : Nat, c ∉ g.roomKeys → g.rooms c = ∅

/-- The registry invariant maintained under `channelsLock`. -/
def RegInv (g : Registry) : Prop := Dual g ∧ EmptyRemoved g ∧ RoomKeysCover g

theorem regInv_empty : RegInv Registry.empty := by
  refine ⟨?_, ?_, ?_⟩ <;> intro x <;> simp [Registry.empty]

theorem channels_of_not_key {g : Registry} (he : EmptyRemoved g) {r : String}
    (hr : r ∉ g.chanKeys) : g.channels r = ∅ := by
  by_contra h
  exact hr ((he r).mpr h)

theorem regInv_Join {g : Registry} (h : RegInv g) (c : Nat) (r : String) :
    RegInv (g.Join c r) := by
  obtain ⟨hd, he, hk⟩ := h
  have hch : (if r ∈ g.chanKeys then g.channels r else ∅) = g.channels r := by
    by_cases hr : r ∈ g.chanKeys
    · rw [if_pos hr]
    · rw [if_neg hr, channels_of_not_key he hr]
  have hrm : (if c ∈ g.roomKeys then g.rooms c else ∅) = g.rooms c := by
    by_cases hc : c ∈ g.roomKeys
    · rw [if_pos hc]
    · rw [if_neg hc, hk c hc]
  refine ⟨?_, ?_, ?_⟩
  · intro r' c'
    show c' ∈ Function.update g.channels r (insert c _) r' ↔
      r' ∈ Function.update g.rooms c (insert r _) c'
    rw [hch, hrm, Function.update_apply, Function.update_apply]
    by_cases hr' : r' = r <;> by_cases hc' : c' = c
    · rw [if_pos hr', if_pos hc', hr', hc']
      simp
    · rw [if_pos hr', if_neg hc', hr', Finset.mem_insert]
      simp only [hc', false_or]
      exact hd r c'
    · rw [if_neg hr', if_pos hc', hc', Finset.mem_insert]
      simp only [hr', false_or]
      exact hd r' c
    · rw [if_neg hr', if_neg hc']
      exact hd r' c'
  · intro r'
    show r' ∈ insert r g.chanKeys ↔ Function.update g.channels r (insert c _) r' ≠ ∅
    rw [hch, Function.update_apply]
    by_cases hr' : r' = r
    · rw [if_pos hr', hr']
      simp [Finset.insert_ne_empty]
    · rw [if_neg hr']
      simp only [Finset.mem_insert, hr', false_or]
      exact he r'
  · intro c' hc'
    have hc'' : c' ∉ insert c g.roomKeys := hc'
    rw [Finset.mem_insert] at hc''
    push_neg at hc''
    show Function.update g.rooms c (insert r _) c' = ∅
    rw [hrm, Function.update_apply, if_neg hc''.1]
    exact hk c' hc''.2

theorem regInv_Leave {g : Registry} (h : RegInv g) (c : Nat) (r : String) :
    RegInv (g.Leave c r) := by
  obtain ⟨hd, he, hk⟩ := h
  have hchan : ∀ r' : String, (g.Leave c r).channels r' =
      if r' = r ∧ r ∈ g.chanKeys then (g.channels r).erase c
      else g.channels r' := by
    intro r'
    show (if r ∈ g.chanKeys then
      Function.update g.channels r ((g.channels r).erase c) else g.channels) r' = _
    by_cases hr : r ∈ g.chanKeys
    · rw [if_pos hr, Function.update_apply]
      by_cases hr' : r' = r
      · rw [if_pos hr', if_pos ⟨hr', hr⟩]
      · rw [if_neg hr', if_neg (fun hx : r' = r ∧ r ∈ g.chanKeys => hr' hx.1)]
    · rw [if_neg hr, if_neg (fun hx : r' = r ∧ r ∈ g.chanKeys => hr hx.2)]
  have hrooms : ∀ c' : Nat, (g.Leave c r).rooms c' =
      if c' = c ∧ c ∈ g.roomKeys then (g.rooms c).erase r
      else g.rooms c' := by
    intro c'
    show (if c ∈ g.roomKeys then
      Function.update g.rooms c ((g.rooms c).erase r) else g.rooms) c' = _
    by_cases hcr : c ∈ g.roomKeys
    · rw [if_pos hcr, Function.update_apply]
      by_cases hc' : c' = c
      · rw [if_pos hc', if_pos ⟨hc', hcr⟩]
      · rw [if_neg hc', if_neg (fun hx : c' = c ∧ c ∈ g.roomKeys => hc' hx.1)]
    · rw [if_neg hcr, if_neg (fun hx : c' = c ∧ c ∈ g.roomKeys => hcr hx.2)]
  have hkeys : ∀ r' : String, (r' ∈ (g.Leave c r).chanKeys) ↔
      (r' ∈ g.chanKeys ∧
        ¬(r' = r ∧ r ∈ g.chanKeys ∧ (g.channels r).erase c = ∅)) := by
    intro r'
    show r' ∈ (if r ∈ g.chanKeys ∧ (g.channels r).erase c = ∅ then
      g.chanKeys.erase r else g.chanKeys) ↔ _
    by_cases hcond : r ∈ g.chanKeys ∧ (g.channels r).erase c = ∅
    · rw [if_pos hcond, Finset.mem_erase]
      constructor
      · rintro ⟨hne, hmem⟩
        exact ⟨hmem, fun hx => hne hx.1⟩
      · rintro ⟨hmem, hn⟩
        exact ⟨fun hEq => hn ⟨hEq, hcond.1, hcond.2⟩, hmem⟩
    · rw [if_neg hcond]
      constructor
      · intro hmem
        exact ⟨hmem, fun hx => hcond ⟨hx.2.1, hx.2.2⟩⟩
      · rintro ⟨hmem, -⟩
        exact hmem
  refine ⟨?_, ?_, ?_⟩
  · intro r' c'
    rw [hchan r', hrooms c']
    by_cases hr' : r' = r <;> by_cases hc' : c' = c
    · rw [hr', hc']
      by_cases hr : r ∈ g.chanKeys <;> by_cases hcr : c ∈ g.roomKeys
      · rw [if_pos (⟨rfl, hr⟩ : r = r ∧ r ∈ g.chanKeys),
          if_pos (⟨rfl, hcr⟩ : c = c ∧ c ∈ g.roomKeys)]
        simp [Finset.mem_erase]
      · rw [if_pos (⟨rfl, hr⟩ : r = r ∧ r ∈ g.chanKeys),
          if_neg (fun hx : c = c ∧ c ∈ g.roomKeys => hcr hx.2), hk c hcr]
        simp [Finset.mem_erase]
      · rw [if_neg (fun hx : r = r ∧ r ∈ g.chanKeys => hr hx.2),
          if_pos (⟨rfl, hcr⟩ : c = c ∧ c ∈ g.roomKeys),
          channels_of_not_key he hr]
        simp
      · rw [if_neg (fun hx : r = r ∧ r ∈ g.chanKeys => hr hx.2),
          if_neg (fun hx : c = c ∧ c ∈ g.roomKeys => hcr hx.2),
          channels_of_not_key he hr, hk c hcr]
        simp
    · rw [hr']
      by_cases hr : r ∈ g.chanKeys
      · rw [if_pos (⟨rfl, hr⟩ : r = r ∧ r ∈ g.chanKeys),
          if_neg (fun hx : c' = c ∧ c ∈ g.roomKeys => hc' hx.1)]
        constructor
        · intro hmem
          exact (hd r c').mp (Finset.mem_erase.mp hmem).2
        · intro hmem
          exact Finset.mem_erase.mpr ⟨hc', (hd r c').mpr hmem⟩
      · rw [if_neg (fun hx : r = r ∧ r ∈ g.chanKeys => hr hx.2),
          if_neg (fun hx : c' = c ∧ c ∈ g.roomKeys => hc' hx.1)]
        exact hd r c'
    · rw [hc']
      by_cases hcr : c ∈ g.roomKeys
      · rw [if_neg (fun hx : r' = r ∧ r ∈ g.chanKeys => hr' hx.1),
          if_pos (⟨rfl, hcr⟩ : c = c ∧ c ∈ g.roomKeys)]
        constructor
        · intro hmem
          exact Finset.mem_erase.mpr ⟨hr', (hd r' c).mp hmem⟩
        · intro hmem
          exact (hd r' c).mpr (Finset.mem_erase.mp hmem).2
      · rw [if_neg (fun hx : r' = r ∧ r ∈ g.chanKeys => hr' hx.1),
          if_neg (fun hx : c = c ∧ c ∈ g.roomKeys => hcr hx.2)]
        exact hd r' c
    · rw [if_neg (fun hx : r' = r ∧ r ∈ g.chanKeys => hr' hx.1),
        if_neg (fun hx : c' = c ∧ c ∈ g.roomKeys => hc' hx.1)]
      exact hd r' c'
  · intro r'
    rw [hkeys r']
    have hgoal : (g.Leave c r).channels r' =
        if r' = r ∧ r ∈ g.chanKeys then (g.channels r).erase c
        else g.channels r' := hchan r'
    rw [hgoal]
    by_cases hr' : r' = r
    · by_cases hr : r ∈ g.chanKeys
      · rw [if_pos ⟨hr', hr⟩]
        by_cases hs : (g.channels r).erase c = ∅
        · simp [hr', hr, hs]
        · simp [hr', hr, hs]
      · rw [if_neg (fun hx : r' = r ∧ r ∈ g.chanKeys => hr hx.2), hr',
          channels_of_not_key he hr]
        simp [hr]
    · rw [if_neg (fun hx : r' = r ∧ r ∈ g.chanKeys => hr' hx.1)]
      simpa [hr'] using he r'
  · intro c' hc'
    have hc'' : c' ∉ g.roomKeys := hc'
    have hne : ¬(c' = c ∧ c ∈ g.roomKeys) := by
      rintro ⟨hcc, hcr⟩
      refine hc'' ?_
      rw [hcc]
      exact hcr
    rw [hrooms c', if_neg hne]
    exact hk c' hc''


theorem regInv_disconnect {g : Registry} (h : RegInv g) (c : Nat) :
    RegInv (onDisconnectCleanup g c) := by
  obtain ⟨hd, he, hk⟩ := h
  by_cases hc : c ∈ g.roomKeys
  · have hmem : ∀ r : String, r ∈ g.rooms c → r ∈ g.chanKeys := by
      intro r hr
      refine (he r).mpr ?_
      intro hempty
      have hin : c ∈ g.channels r := (hd r c).mpr hr
      rw [hempty] at hin
      exact absurd hin (Finset.not_mem_empty c)
    rw [onDisconnectCleanup, if_pos hc]
    refine ⟨?_, ?_, ?_⟩
    · intro r' c'
      show c' ∈ (if r' ∈ g.rooms c ∧ r' ∈ g.chanKeys then
          (g.channels r').erase c else g.channels r') ↔
        r' ∈ Function.update g.rooms c ∅ c'
      rw [Function.update_apply]
      by_cases hc' : c' = c
      · subst hc'
        rw [if_pos rfl]
        simp only [Finset.not_mem_empty, iff_false]
        by_cases hcond : r' ∈ g.rooms c' ∧ r' ∈ g.chanKeys
        · rw [if_pos hcond]
          simp [Finset.mem_erase]
        · rw [if_neg hcond]
          intro hin
          have hr' : r' ∈ g.rooms c' := (hd r' c').mp hin
          exact hcond ⟨hr', hmem r' hr'⟩
      · rw [if_neg hc']
        by_cases hcond : r' ∈ g.rooms c ∧ r' ∈ g.chanKeys
        · rw [if_pos hcond, Finset.mem_erase]
          simp [hc', hd r' c']
        · rw [if_neg hcond]
          exact hd r' c'
    · intro r'
      show r' ∈ g.chanKeys.filter _ ↔
        (if r' ∈ g.rooms c ∧ r' ∈ g.chanKeys then
          (g.channels r').erase c else g.channels r') ≠ ∅
      rw [Finset.mem_filter]
      by_cases hr : r' ∈ g.rooms c
      · have hck : r' ∈ g.chanKeys := hmem r' hr
        rw [if_pos ⟨hr, hck⟩]
        constructor
        · rintro ⟨-, hp⟩ hemp
          exact hp ⟨hr, hemp⟩
        · intro hne
          refine ⟨hck, ?_⟩
          intro hcontra
          exact hne hcontra.2
      · rw [if_neg (fun hcontra => hr hcontra.1)]
        constructor
        · rintro ⟨hck, -⟩
          exact (he r').mp hck
        · intro hne
          refine ⟨(he r').mpr hne, ?_⟩
          intro hcontra
          exact hr hcontra.1
    · intro c' hc'
      show Function.update g.rooms c ∅ c' = ∅
      by_cases heq : c' = c
      · subst heq
        rw [Function.update_same]
      · rw [Function.update_apply, if_neg heq]
        refine hk c' ?_
        intro hmem'
        exact hc' (Finset.mem_erase.mpr ⟨heq, hmem'⟩)
  · rw [onDisconnectCleanup, if_neg hc]
    exact ⟨hd, he, hk⟩

/-- Operations a server history performs on the membership registry. -/
inductive RegOp where
  | join (c : Nat) (r : String)
  | leave (c : Nat) (r : String)
  | disconnect (c : Nat)

/-- Apply one registry operation. -/
def regStep (g : Registry) : RegOp → Registry
  | .join c r => g.Join c r
  | .leave c r => g.Leave c r
  | .disconnect c => onDisconnectCleanup g c

/-- Run a history of Join / Leave / disconnect-cleanup operations from the
empty registry `NewServer` creates. -/
def regRun (ops : List RegOp) : Registry :=
  ops.foldl regStep Registry.empty

theorem regInv_step {g : Registry} (h : RegInv g) (op : RegOp) :
    RegInv (regStep g op) := by
  cases op with
  | join c r => exact regInv_Join h c r
  | leave c r => exact regInv_Leave h c r
  | disconnect c => exact regInv_disconnect h c

theorem regInv_run (ops : List RegOp) : RegInv (regRun ops) := by
  suffices h : ∀ g : Registry, RegInv g → RegInv (ops.foldl regStep g) from
    h Registry.empty regInv_empty
  induction ops with
  | nil => intro g hg; simpa using hg
  | cons op rest ih =>
      intro g hg
      exact ih (regStep g op) (regInv_step hg op)

/-- C2: Membership duality: after any sequence of `Join`, `Leave`, and
disconnect-cleanup operations starting from the empty registry, a channel is
in `channels[room]` iff the room is in `rooms[channel]`, and a room key is
present in `channels` exactly while its channel set is nonempty (it is
removed as soon as the set becomes empty). -/
theorem membership_duality (ops : List RegOp) :
    (∀ (r : String) (c : Nat),
      c ∈ (regRun ops).channels r ↔ r ∈ (regRun ops).rooms c) ∧
    (∀ r : String, r ∈ (regRun ops).chanKeys ↔ (regRun ops).channels r ≠ ∅) :=
  ⟨(regInv_run ops).1, (regInv_run ops).2.1⟩

/-! ## Handler registry (caller.go: newCaller; handler.go: On, callLoopEvent,
processIncomingMessage)

`newCaller` inspects a user value through reflection: whether it is a
function, how many parameters it takes, the type of the second parameter,
and how many values it returns.  Only these observations are used by the
code, so a user value is embedded as that reflection record. -/

/-- Go types as far as the registration layer observes them. -/
inductive GoType where
  | channelPtr
  | emptyStruct
  | intType
  | strType
  deriving DecidableEq, Repr

/-- Reflection view of a user-supplied value: whether it is a function and,
when it is, its parameter types and result count. -/
structure GoFunc where
  isFunc : Bool
  inTypes : List GoType
  numOut : Nat
  deriving DecidableEq, Repr

/-- The stored representation of a registered handler (caller.go), as used
by handler.go: the declared argument type, whether an argument is declared,
and whether the function returns a value. -/
structure Caller where
  args : GoType
  argsPresent : Bool
  out : Bool
  deriving DecidableEq, Repr

/-- Embedding of `newCaller` (caller.go): reject non-functions with
`ErrorCallerNotFunc`, then a parameter count other than two with
`ErrorCallerNot2Args`, then more than one return value with
`ErrorCallerMaxOneValue`; otherwise store the second parameter type
(`fType.In(1)`) and whether one value is returned. -/
def newCaller (f : GoFunc) : Except GoError Caller :=
  if f.isFunc = false then .error .errNotFunc
  else if f.inTypes.length ≠ 2 then .error .errNot2Args
  else if 1 < f.numOut then .error .errMaxOneValue
  else .ok { args := f.inTypes.getD 1 .emptyStruct, argsPresent := true,
             out := f.numOut == 1 }

/-- Embedding of `methods.On` (handler.go): build the caller, propagate its
error, otherwise store it under the method name. -/
def On (handlers : String → Option Caller) (method : String) (f : GoFunc) :
    Except GoError (String → Option Caller) :=
  match newCaller f with
  | .error e => .error e
  | .ok cal => .ok (Function.update handlers method (some cal))

/-- A concrete non-function value. -/
def nonFuncValue : GoFunc := { isFunc := false, inTypes := [], numOut := 0 }

/-- A concrete function `func(int, string)`: two parameters, neither of
them `*Channel`, no return value. -/
def intStrFunc : GoFunc :=
  { isFunc := true, inTypes := [.intType, .strType], numOut := 0 }

/-- C7 counterexample: The claim that registration succeeds only when the
parameters are `(Channel, T)` fails: `newCaller` never inspects the first
parameter type, so `func(int, string)` registers successfully even though
its first parameter is not a channel. -/
theorem newCaller_counterexample :
    (newCaller intStrFunc).isOk = true ∧
    intStrFunc.inTypes.getD 0 .emptyStruct ≠ GoType.channelPtr := by
  decide

/-- C7 amended: Handler registration validation, as the code orders its
checks: registration fails with `ErrorCallerNotFunc` iff the value is not a
function; fails with `ErrorCallerNot2Args` iff it is a function whose
parameter count differs from two; fails with `ErrorCallerMaxOneValue` iff it
is a two-parameter function returning more than one value; and succeeds iff
it is a function with exactly two parameters and at most one return value —
the types of the parameters (in particular whether the first is a Channel)
are not validated. -/
theorem newCaller_validation (f : GoFunc) :
    (newCaller f = .error .errNotFunc ↔ f.isFunc = false) ∧
    (newCaller f = .error .errNot2Args ↔
      f.isFunc = true ∧ f.inTypes.length ≠ 2) ∧
    (newCaller f = .error .errMaxOneValue ↔
      f.isFunc = true ∧ f.inTypes.length = 2 ∧ 1 < f.numOut) ∧
    ((newCaller f).isOk = true ↔
      f.isFunc = true ∧ f.inTypes.length = 2 ∧ f.numOut ≤ 1) := by
  by_cases h1 : f.isFunc = false
  · refine ⟨?_, ?_, ?_, ?_⟩ <;> simp [newCaller, h1, Except.isOk, Except.toBool]
  · rw [Bool.not_eq_false] at h1
    by_cases h2 : f.inTypes.length = 2
    · by_cases h3 : 1 < f.numOut
      · refine ⟨?_, ?_, ?_, ?_⟩ <;>
          simp [newCaller, h1, h2, h3, Except.isOk, Except.toBool]
      · refine ⟨?_, ?_, ?_, ?_⟩ <;>
          simp [newCaller, h1, h2, h3, Except.isOk, Except.toBool] <;>
          omega
    · refine ⟨?_, ?_, ?_, ?_⟩ <;>
        · simp [newCaller, h1, h2, Except.isOk, Except.toBool]

/-! ## Incoming message dispatch (handler.go: processIncomingMessage)

The message processor runs with the registry lookup `reg`, a JSON-decode
oracle `decodeOk` (whether `json.Unmarshal` of the message args into the
handler's declared type succeeds), the ack waiter table `waiters`, and the
session signals.  Its observable behaviour is the ordered list of effects it
performs. -/

/-- Message types of the protocol layer (protocol.go). -/
inductive MsgType where
  | typeOpen
  | typeClose
  | typePing
  | typePong
  | typeEmpty
  | typeEmit
  | typeAckRequest
  | typeAckResponse
  deriving DecidableEq, Repr

/-- A decoded wire message as the dispatcher sees it. -/
structure Message where
  mtype : MsgType
  method : String
  ackId : Nat
  args : String
  deriving DecidableEq, Repr

/-- The argument value a handler is invoked with. -/
inductive ArgVal where
  | zeroStruct
  | decoded (s : String)
  deriving DecidableEq, Repr

/-- The (symbolic) value returned by invoking the handler registered under a
method on a given argument. -/
inductive RetVal where
  | retOf (method : String) (arg : ArgVal)
  deriving DecidableEq, Repr

/-- A message placed on the outbound queue by the dispatcher. -/
inductive OutMsg where
  | ackResp (ackId : Nat) (body : RetVal)
  deriving DecidableEq, Repr

/-- Observable effects of dispatching one message or loop event. -/
inductive Eff where
  | errCall (e : GoError)
  | sysSlot (name : String)
  | invoked (method : String) (arg : ArgVal)
  | enqueued (m : OutMsg)
  | waiterDelivered (ackId : Nat) (args : String)
  deriving DecidableEq, Repr

/-- Modelled from the spec: the `send` helper used for ACK-REQ responses is
not part of the sources at hand; per the spec it encodes the handler's
return value as the `Args` of an ACK-RESP message carrying the same `AckId`
and enqueues it on the session's outbound queue. -/
def sendAck (ackId : Nat) (body : RetVal) : Eff :=
  .enqueued (.ackResp ackId body)

/-- Embedding of `processIncomingMessage` (handler.go).  EMIT: look up the
caller (error-and-stop when absent), invoke with a zero value when no
argument is declared, otherwise JSON-decode the args (error-and-stop on
failure) and invoke.  ACK-REQ: the lookup also fails when the registered
handler returns no value (`!ok || !f.Out`); otherwise decode as for EMIT,
invoke, and enqueue an ACK-RESP with the same AckId carrying the returned
value.  ACK-RESP: find the waiter by AckId (error when absent) and deliver
the args unless the session is already closed.  Other types: no effect. -/
def processIncomingMessage (reg : String → Option Caller)
    (decodeOk : String → Bool) (waiters : Nat → Bool) (closedSig : Bool)
    (msg : Message) : List Eff :=
  match msg.mtype with
  | .typeEmit =>
    match reg msg.method with
    | none => [.errCall .errMethodNotFound]
    | some f =>
      if f.argsPresent = false then [.invoked msg.method .zeroStruct]
      else if decodeOk msg.args = false then [.errCall .errJsonUnmarshal]
      else [.invoked msg.method (.decoded msg.args)]
  | .typeAckRequest =>
    match reg msg.method with
    | none => [.errCall .errMethodNotFound]
    | some f =>
      if f.out = false then [.errCall .errMethodNotFound]
      else if f.argsPresent = false then
        [.invoked msg.method .zeroStruct,
          sendAck msg.ackId (.retOf msg.method .zeroStruct)]
      else if decodeOk msg.args = false then [.errCall .errJsonUnmarshal]
      else
        [.invoked msg.method (.decoded msg.args),
          sendAck msg.ackId (.retOf msg.method (.decoded msg.args))]
  | .typeAckResponse =>
    if waiters msg.ackId = false then [.errCall .errWaiterNotFound]
    else if closedSig then []
    else [.waiterDelivered msg.ackId msg.args]
  | _ => []

/-- A registry holding, under `"m"`, a handler that declares no return
value. -/
def regNoOut : String → Option Caller :=
  Function.update (fun _ => none) "m"
    (some { args := .emptyStruct, argsPresent := false, out := false })

/-- EMIT message for method `"m"`. -/
def emitMsg : Message :=
  { mtype := .typeEmit, method := "m", ackId := 7, args := "[]" }

/-- ACK-REQ message for method `"m"` with the same payload. -/
def ackReqMsg : Message :=
  { mtype := .typeAckRequest, method := "m", ackId := 7, args := "[]" }

/-- C8 counterexample: ACK-REQ dispatch does not proceed exactly as for
EMIT: with a handler registered under `"m"` that returns no value, an EMIT
invokes the handler, while an ACK-REQ with the same method raises the
method-not-found error (the `!ok || !f.Out` guard), never invokes the
handler and enqueues nothing. -/
theorem processAckRequest_counterexample :
    processIncomingMessage regNoOut (fun _ => true) (fun _ => true) false
        emitMsg = [.invoked "m" .zeroStruct] ∧
    processIncomingMessage regNoOut (fun _ => true) (fun _ => true) false
        ackReqMsg = [.errCall .errMethodNotFound] := by
  constructor <;> rfl

/-- C8 amended: ACK-REQ handling: dispatch proceeds as for EMIT except
that the caller lookup additionally fails — raising the same
unable-to-find-method error and stopping — when the registered handler
declares no return value; otherwise the argument is the zero value or the
JSON-decoded args (error-and-stop on decode failure), the handler is
invoked, and its return value is enqueued as the `Args` of an ACK-RESP
carrying the same `AckId`. -/
theorem processAckRequest_dispatch (reg : String → Option Caller)
    (decodeOk : String → Bool) (waiters : Nat → Bool) (closedSig : Bool)
    (msg : Message) (hty : msg.mtype = .typeAckRequest) :
    (reg msg.method = none →
      processIncomingMessage reg decodeOk waiters closedSig msg =
        [.errCall .errMethodNotFound]) ∧
    (∀ f : Caller, reg msg.method = some f →
      (f.out = false →
        processIncomingMessage reg decodeOk waiters closedSig msg =
          [.errCall .errMethodNotFound]) ∧
      (f.out = true → f.argsPresent = false →
        processIncomingMessage reg decodeOk waiters closedSig msg =
          [.invoked msg.method .zeroStruct,
            .enqueued (.ackResp msg.ackId (.retOf msg.method .zeroStruct))]) ∧
      (f.out = true → f.argsPresent = true → decodeOk msg.args = false →
        processIncomingMessage reg decodeOk waiters closedSig msg =
          [.errCall .errJsonUnmarshal]) ∧
      (f.out = true → f.argsPresent = true → decodeOk msg.args = true →
        processIncomingMessage reg decodeOk waiters closedSig msg =
          [.invoked msg.method (.decoded msg.args),
            .enqueued (.ackResp msg.ackId
              (.retOf msg.method (.decoded msg.args)))])) := by
  constructor
  · intro hnone
    simp [processIncomingMessage, hty, hnone]
  · intro f hsome
    refine ⟨?_, ?_, ?_, ?_⟩
    · intro hout
      simp [processIncomingMessage, hty, hsome, hout]
    · intro hout hap
      simp [processIncomingMessage, hty, hsome, hout, hap, sendAck]
    · intro hout hap hdec
      simp [processIncomingMessage, hty, hsome, hout, hap, hdec]
    · intro hout hap hdec
      simp [processIncomingMessage, hty, hsome, hout, hap, hdec, sendAck]

/-- Witness for `processAckRequest_dispatch`: a registered handler with a
return value and no declared argument is invoked and an ACK-RESP with the
same AckId is enqueued. -/
theorem processAckRequest_dispatch_witness :
    processIncomingMessage
        (Function.update (fun _ => none) "m"
          (some { args := .emptyStruct, argsPresent := false, out := true }))
        (fun _ => true) (fun _ => true) false ackReqMsg =
      [.invoked "m" .zeroStruct,
        .enqueued (.ackResp 7 (.retOf "m" .zeroStruct))] :=
  (((processAckRequest_dispatch
      (Function.update (fun _ => none) "m"
        (some { args := .emptyStruct, argsPresent := false, out := true }))
      (fun _ => true) (fun _ => true) false ackReqMsg rfl).2
    { args := .emptyStruct, argsPresent := false, out := true } rfl).2.1) rfl rfl

/-! ## callLoopEvent (handler.go)

`callLoopEvent` first runs the system slot matching the event (when set),
then looks up a user handler under the event name: when absent it reports an
unable-to-find-method error through the error handler; when present it
invokes the handler with a fresh `&struct{}{}` argument. -/

/-- Event name of the connection system event (handler.go). -/
def OnConnection : String := "connection"

/-- Event name of the disconnection system event (handler.go). -/
def OnDisconnection : String := "disconnection"

/-- The `methods` struct (handler.go): user handler map plus the two system
slots (present or not). -/
structure Methods where
  handlers : String → Option Caller
  onConnectionSet : Bool
  onDisconnectionSet : Bool

/-- The system-slot invocations `callLoopEvent` performs before the user
handler lookup. -/
def sysSlots (m : Methods) (event : String) : List Eff :=
  (if m.onConnectionSet = true ∧ event = OnConnection then
    [Eff.sysSlot OnConnection] else []) ++
  (if m.onDisconnectionSet = true ∧ event = OnDisconnection then
    [Eff.sysSlot OnDisconnection] else [])

/-- Embedding of `callLoopEvent` (handler.go): run the matching system slots,
then find the user handler for the event; report the unable-to-find-method
error when absent, otherwise invoke the handler with an empty struct. -/
def callLoopEvent (m : Methods) (event : String) : List Eff :=
  sysSlots m event ++
  (match m.handlers event with
   | none => [.errCall .errMethodNotFound]
   | some _ => [.invoked event .zeroStruct])

/-- C10: For every event dispatched through `callLoopEvent` (the system
events included): when no user handler is registered under the event name,
the error handler receives the unable-to-find-method error after the system
slot (if set) has run; when a user handler is registered, it is invoked with
a fresh empty-struct argument after the system slot. -/
theorem callLoopEvent_spec (m : Methods) (event : String) :
    (m.handlers event = none →
      callLoopEvent m event = sysSlots m event ++ [.errCall .errMethodNotFound]) ∧
    (∀ f : Caller, m.handlers event = some f →
      callLoopEvent m event = sysSlots m event ++ [.invoked event .zeroStruct]) := by
  constructor
  · intro hnone
    simp [callLoopEvent, hnone]
  · intro f hsome
    simp [callLoopEvent, hsome]

/-- Witness for `callLoopEvent_spec`: raising `OnDisconnection` with the
system slot set and no user handler runs the slot and then reports the
missing handler. -/
theorem callLoopEvent_spec_witness :
    callLoopEvent
        { handlers := fun _ => none, onConnectionSet := true,
          onDisconnectionSet := true } OnDisconnection =
      [.sysSlot OnDisconnection, .errCall .errMethodNotFound] := by
  have h := (callLoopEvent_spec
    { handlers := fun _ => none, onConnectionSet := true,
      onDisconnectionSet := true } OnDisconnection).1 rfl
  rw [h]
  rfl

end Gos
